import Mathlib

/-!
Shallow embedding of the TLS-stream creation logic of the tiberius client
(`src/client/tls_stream/native_tls_stream.rs` and
`src/client/tls_stream/rustls_tls_stream.rs`).

Both backends are modelled up to the point where the asynchronous handshake
is handed to the external TLS engine: the embedding covers reading and
decoding the configured CA material, building the backend-specific trust
configuration (root store, verifier override, connector flags), and the
rustls server-name resolution.  External collaborators (the filesystem,
the PEM decoder, DER certificate validation, the platform certificate
store, IP-address parsing) are passed in as explicit oracles in an `Env`
record so every definition stays executable.
-/

namespace Tiberius

/-- Raw bytes (Rust `Vec<u8>`) as a list of naturals. -/
abbrev Bytes := List Nat

/-- The part of a Rust `Path` the code inspects: a display name (used in
error messages, `to_string_lossy`) and the result of `Path::extension`. -/
structure Path where
  name : String
  ext : Option String
deriving DecidableEq, Repr

/-- ASCII lowercasing of one character, as Rust `to_ascii_lowercase`. -/
def asciiLowerChar (c : Char) : Char :=
  if 'A' ≤ c ∧ c ≤ 'Z' then Char.ofNat (c.toNat + 32) else c

/-- ASCII lowercasing of a string, as Rust `OsStr::to_ascii_lowercase`. -/
def asciiLower (s : String) : String := String.mk (s.data.map asciiLowerChar)

/-- `std::io::ErrorKind`, restricted to the kinds the spec names plus the
ones this code constructs. -/
inductive IoErrorKind
  | NotFound
  | PermissionDenied
  | InvalidInput
  | InvalidData
  | Other
deriving DecidableEq, Repr

/-- The crate error type (`crate::Error`), restricted to the variants these
two files construct: `Error::Io { kind, message }` and `Error::Tls(message)`. -/
inductive Error
  | Io (kind : IoErrorKind) (message : String)
  | Tls (message : String)
deriving DecidableEq, Repr

/-- `TrustConfig`: the four trust-policy variants of the client config. -/
inductive TrustConfig
  | CaCertificateLocation (path : Path)
  | CaCertificateBundle (bundle : Bytes)
  | TrustAll
  | Default
deriving DecidableEq, Repr

/-- `Config`: the host string and the trust policy; the only fields the
TLS-stream code reads (`config.get_host()`, `config.trust`). -/
structure Config where
  host : String
  trust : TrustConfig
deriving DecidableEq, Repr

/-- The external world both backends consult, as explicit oracles:

* `fsRead` — `std::fs::read`, yielding the file bytes or an I/O error kind;
* `pemBlocks` — PEM parsing shared by `rustls_pemfile::certs` and the
  OpenSSL PEM reader behind native-tls: `none` when the PEM structure is
  malformed, otherwise the list of DER payloads of the CERTIFICATE blocks,
  in order;
* `validCertDer` — whether a DER payload parses as an X.509 certificate
  (the check performed by `RootCertStore::add` and by
  `Certificate::from_der` / `from_pem`).

The DER blobs returned by `rustls_native_certs::load_native_certs` are a
separate `NativeCertList` parameter. -/
structure Env where
  fsRead : Path → Except IoErrorKind Bytes
  pemBlocks : Bytes → Option (List Bytes)
  validCertDer : Bytes → Bool

/-- The platform certificate store, kept separate from `Env` so theorems
about single-policy behaviour need not mention it. -/
abbrev NativeCertList := List Bytes

/-! ## The native-tls backend (`native_tls_stream.rs`) -/

/-- The observable state of `async_native_tls::TlsConnector` after the
builder calls in `create_tls_stream`: added root certificates and the
three danger/SNI flags.  `TlsConnector::new()` defaults: no extra roots,
both accept-invalid flags false, SNI in use. -/
structure TlsConnectorBuilder where
  rootCerts : List Bytes
  acceptInvalidCerts : Bool
  acceptInvalidHostnames : Bool
  useSni : Bool
deriving DecidableEq, Repr

/-- `TlsConnector::new()`. -/
def TlsConnectorBuilder.new : TlsConnectorBuilder :=
  { rootCerts := [], acceptInvalidCerts := false
    acceptInvalidHostnames := false, useSni := true }

/-- `native_tls::Certificate::from_pem` (OpenSSL `X509::from_pem`): reads
the first CERTIFICATE block of the buffer and parses its DER payload;
fails when the PEM structure is malformed, when the buffer holds no
certificate block, or when the payload is not a valid certificate. -/
def Certificate.from_pem (env : Env) (buf : Bytes) : Except Error Bytes :=
  match env.pemBlocks buf with
  | none => .error (.Tls "PEM parse error")
  | some [] => .error (.Tls "no certificate found in PEM input")
  | some (c :: _) =>
      if env.validCertDer c then .ok c
      else .error (.Tls "invalid certificate")

/-- `native_tls::Certificate::from_der`: the raw bytes must parse as one
DER certificate. -/
def Certificate.from_der (env : Env) (buf : Bytes) : Except Error Bytes :=
  if env.validCertDer buf then .ok buf
  else .error (.Tls "invalid DER certificate")

/-- Modelled from the spec: `IterCertBundle` (repository module
`client/tls_stream/iter_certs`, not present under src/) "splits bundle
into PEM blocks"; each block is then decoded by `Certificate::from_pem`.
Represented here by the DER payloads the shared PEM oracle extracts from
the bundle, `none` when the PEM structure of the bundle is malformed. -/
def IterCertBundle.blocks (env : Env) (bundle : Bytes) : Option (List Bytes) :=
  env.pemBlocks bundle

/-- The bundle loop of `create_tls_stream`: add each decoded certificate
as a root, failing fast (`?`) on the first block that does not decode. -/
def addBundleCerts (env : Env) (b : TlsConnectorBuilder) :
    List Bytes → Except Error TlsConnectorBuilder
  | [] => .ok b
  | c :: rest =>
      if env.validCertDer c then
        addBundleCerts env { b with rootCerts := b.rootCerts ++ [c] } rest
      else .error (.Tls "invalid certificate")

/-- The trust-configuration phase of `create_tls_stream`
(`native_tls_stream.rs`, lines 17–63): everything before
`builder.connect(config.get_host(), stream)` hands the builder to the
external engine.  Returns the built connector state or the error the
function returns early. -/
def create_tls_stream (env : Env) (config : Config) :
    Except Error TlsConnectorBuilder :=
  let builder := TlsConnectorBuilder.new
  match config.trust with
  | .CaCertificateLocation path =>
      match env.fsRead path with
      | .ok buf =>
          match path.ext with
          | some ext =>
              if asciiLower ext = "pem" ∨ asciiLower ext = "crt" then
                match Certificate.from_pem env buf with
                | .ok c => .ok { builder with rootCerts := builder.rootCerts ++ [c] }
                | .error e => .error e
              else if asciiLower ext = "der" then
                match Certificate.from_der env buf with
                | .ok c => .ok { builder with rootCerts := builder.rootCerts ++ [c] }
                | .error e => .error e
              else
                .error (.Tls "Provided CA certificate with unsupported file-extension! Supported types are pem, crt and der.")
          | none =>
              .error (.Tls "Provided CA certificate with unsupported file-extension! Supported types are pem, crt and der.")
      | .error _ =>
          .error (.Tls "Could not read provided CA certificate!")
  | .CaCertificateBundle bundle =>
      match IterCertBundle.blocks env bundle with
      | none => .error (.Tls "PEM parse error")
      | some blocks => addBundleCerts env builder blocks
  | .TrustAll =>
      .ok { builder with acceptInvalidCerts := true
                         acceptInvalidHostnames := true
                         useSni := false }
  | .Default => .ok builder

/-! ## The rustls backend (`rustls_tls_stream.rs`) -/

/-- The certificate verifier installed in the rustls `ClientConfig`:
either the default WebPKI verifier over the configured roots, or the
`NoCertVerifier` override installed through `dangerous()`. -/
inductive VerifierKind
  | WebPki
  | NoCertVerifierOverride
deriving DecidableEq, Repr

/-- The observable state of the rustls `ClientConfig` built by
`TlsStream::new`: the root store, which verifier is active, and the
`enable_sni` flag (rustls default: `true`; the line that would set it to
`false` under `TrustAll` is commented out in the source). -/
structure ClientConfig where
  roots : List Bytes
  verifier : VerifierKind
  enableSni : Bool
deriving DecidableEq, Repr

/-- `RootCertStore::add`: parses the DER payload, appends it to the store
on success, errors (a `rustls::Error`, converted to `Error::Tls` by the
`From` impl at the top of the file) on failure. -/
def RootCertStore.add (env : Env) (store : List Bytes) (cert : Bytes) :
    Except Error (List Bytes) :=
  if env.validCertDer cert then .ok (store ++ [cert])
  else .error (.Tls "invalid certificate der")

/-- The bundle loop of `TlsStream::new`: `for cert in certs { cert_store.add(...)? }`. -/
def RootCertStore.addAll (env : Env) (store : List Bytes) :
    List Bytes → Except Error (List Bytes)
  | [] => .ok store
  | c :: rest =>
      match RootCertStore.add env store c with
      | .ok store2 => RootCertStore.addAll env store2 rest
      | .error e => .error e

/-- Accumulator of `with_native_roots`: the store being built plus the
`valid_count` / `invalid_count` diagnostics. -/
structure NativeRootsAcc where
  roots : List Bytes
  validCount : Nat
  invalidCount : Nat
deriving DecidableEq, Repr

/-- The loop of `with_native_roots` (`rustls_tls_stream.rs`, lines
231–242): each native certificate is added to the store; a parse failure
is logged and counted, never aborts the loop. -/
def withNativeRootsLoop (env : Env) (acc : NativeRootsAcc) :
    List Bytes → NativeRootsAcc
  | [] => acc
  | c :: rest =>
      if env.validCertDer c then
        withNativeRootsLoop env
          { roots := acc.roots ++ [c], validCount := acc.validCount + 1
            invalidCount := acc.invalidCount } rest
      else
        withNativeRootsLoop env
          { acc with invalidCount := acc.invalidCount + 1 } rest

/-- `with_native_roots` (`rustls_tls_stream.rs`, lines 226–252): loads the
platform certificates, adds them with skip-and-count error handling, then
`assert!(!roots.is_empty(), "no CA certificates found")`.  The assertion
failure — a Rust panic that aborts the connection attempt — is modelled as
the distinguished error below, so that "fails fatally" is observable. -/
def with_native_roots (env : Env) (native : NativeCertList) :
    Except Error (List Bytes) :=
  let acc := withNativeRootsLoop env ⟨[], 0, 0⟩ native
  if acc.roots.isEmpty then
    .error (.Tls "assertion failed: no CA certificates found")
  else .ok acc.roots

namespace TlsStream

/-- The trust-configuration phase of `TlsStream::new`
(`rustls_tls_stream.rs`, lines 102–173): the `match &config.trust` that
builds the `ClientConfig`, up to the point where the connector performs
the external handshake.  Returns the built client config or the error the
function returns early. -/
def new (env : Env) (native : NativeCertList) (config : Config) :
    Except Error ClientConfig :=
  match config.trust with
  | .CaCertificateLocation path =>
      match env.fsRead path with
      | .ok buf =>
          match path.ext with
          | some ext =>
              if asciiLower ext = "pem" ∨ asciiLower ext = "crt" then
                match env.pemBlocks buf with
                | none => .error (.Io .InvalidData "PEM parse error")
                | some pem_cert =>
                    match pem_cert with
                    | [c] =>
                        match RootCertStore.add env [] c with
                        | .ok store => .ok ⟨store, .WebPki, true⟩
                        | .error e => .error e
                    | _ =>
                        .error (.Io .InvalidInput
                          ("Certificate file " ++ path.name ++ " contain 0 or more than 1 certs"))
              else if asciiLower ext = "der" then
                match RootCertStore.add env [] buf with
                | .ok store => .ok ⟨store, .WebPki, true⟩
                | .error e => .error e
              else
                .error (.Io .InvalidInput "Provided CA certificate with unsupported file-extension! Supported types are pem, crt and der.")
          | none =>
              .error (.Io .InvalidInput "Provided CA certificate with unsupported file-extension! Supported types are pem, crt and der.")
      | .error _ =>
          .error (.Io .InvalidData "Could not read provided CA certificate!")
  | .CaCertificateBundle bundle =>
      match env.pemBlocks bundle with
      | none => .error (.Io .InvalidData "PEM parse error")
      | some certs =>
          match RootCertStore.addAll env [] certs with
          | .ok store => .ok ⟨store, .WebPki, true⟩
          | .error e => .error e
  | .TrustAll => .ok ⟨[], .NoCertVerifierOverride, true⟩
  | .Default =>
      match with_native_roots env native with
      | .ok roots => .ok ⟨roots, .WebPki, true⟩
      | .error e => .error e

end TlsStream

/-! ## Server-name resolution (`get_server_name`, lines 91–99)

`ServerName::try_from` comes from rustls pki-types: it first runs the
DNS-name validator below and, when that rejects, falls back to parsing the
string as an IP address.  The DNS validator is embedded as the pki-types
state machine; IP parsing is left as an oracle since no claim depends on
its internals. -/

/-- State of the pki-types DNS-name validation machine. -/
inductive DnsState
  | Start
  | Next
  | NumericOnly (len : Nat)
  | NextAfterNumericOnly
  | Subsequent (len : Nat)
  | Hyphen (len : Nat)
deriving DecidableEq, Repr

/-- ASCII letter test (the two Rust byte ranges a..z and A..Z). -/
def isAsciiAlpha (c : Char) : Bool :=
  ('a' ≤ c ∧ c ≤ 'z') ∨ ('A' ≤ c ∧ c ≤ 'Z')

/-- ASCII digit test (the Rust byte range 0..9). -/
def isAsciiDigit (c : Char) : Bool := '0' ≤ c ∧ c ≤ '9'

/-- One transition of the pki-types `DnsName` validator (`validate`), with
`none` for the arms that return `InvalidDnsNameError`.  Labels are capped
at 63 characters. -/
def dnsStep (state : DnsState) (c : Char) : Option DnsState :=
  match state with
  | .Start | .Next | .NextAfterNumericOnly =>
      if c = '.' then none
      else if isAsciiDigit c then some (.NumericOnly 1)
      else if isAsciiAlpha c ∨ c = '_' then some (.Subsequent 1)
      else none
  | .Subsequent len =>
      if c = '.' then some .Next
      else if 63 ≤ len then none
      else if c = '-' then some (.Hyphen (len + 1))
      else if isAsciiDigit c then some (.Subsequent (len + 1))
      else if isAsciiAlpha c ∨ c = '_' then some (.Subsequent (len + 1))
      else none
  | .NumericOnly len =>
      if c = '.' then some .NextAfterNumericOnly
      else if 63 ≤ len then none
      else if isAsciiDigit c then some (.NumericOnly (len + 1))
      else if c = '-' then some (.Hyphen (len + 1))
      else if isAsciiAlpha c ∨ c = '_' then some (.Subsequent (len + 1))
      else none
  | .Hyphen len =>
      if c = '.' then none
      else if 63 ≤ len then none
      else if c = '-' then some (.Hyphen (len + 1))
      else if isAsciiDigit c ∨ isAsciiAlpha c ∨ c = '_' then some (.Subsequent (len + 1))
      else none

/-- Runs the validator over the input characters. -/
def dnsRun (state : DnsState) : List Char → Option DnsState
  | [] => some state
  | c :: rest =>
      match dnsStep state c with
      | some s2 => dnsRun s2 rest
      | none => none

/-- pki-types `DnsName` validity: at most 253 characters, every transition
accepted, and the final state is neither `Start`, a trailing hyphen, an
all-numeric final label, nor just after an all-numeric label. -/
def dnsNameIsValid (s : String) : Bool :=
  if 253 < s.length then false
  else
    match dnsRun .Start s.data with
    | some (.Next) => true
    | some (.Subsequent _) => true
    | _ => false

/-- `rustls::pki_types::ServerName`: a validated DNS name or an IP address. -/
inductive ServerName
  | DnsName (name : String)
  | IpAddress (ip : String)
deriving DecidableEq, Repr

/-- `ServerName::try_from`: DNS validation first, then the IP-address
parse (`ipParse` oracle) as fallback; `none` when both reject. -/
def ServerName.try_from (ipParse : String → Bool) (s : String) :
    Option ServerName :=
  if dnsNameIsValid s then some (.DnsName s)
  else if ipParse s then some (.IpAddress s)
  else none

/-- `get_server_name` (`rustls_tls_stream.rs`, lines 91–99).  The
`unwrap()` on the `TrustAll` fallback path is modelled by returning the
raw parse result of the placeholder string: a result of `.ok none` would
correspond to that unwrap panicking. -/
def get_server_name (ipParse : String → Bool) (config : Config) :
    Except Error (Option ServerName) :=
  match ServerName.try_from ipParse config.host, config.trust with
  | some sn, _ => .ok (some sn)
  | none, .TrustAll => .ok (ServerName.try_from ipParse "placeholder.domain.com")
  | none, _ => .error (.Tls "invalid dns name")

/-! ## The permissive verifier (`NoCertVerifier`, lines 41–89) -/

/-- `rustls::SignatureScheme`, restricted to the members this file lists. -/
inductive SignatureScheme
  | RSA_PKCS1_SHA1
  | ECDSA_SHA1_Legacy
  | RSA_PKCS1_SHA256
  | ECDSA_NISTP256_SHA256
  | RSA_PKCS1_SHA384
  | ECDSA_NISTP384_SHA384
  | RSA_PKCS1_SHA512
  | ECDSA_NISTP521_SHA512
  | RSA_PSS_SHA256
  | RSA_PSS_SHA384
  | RSA_PSS_SHA512
  | ED25519
  | ED448
deriving DecidableEq, Repr

/-- `rustls::Error` as seen by the verifier trait, kept abstract. -/
abbrev RustlsError := String

/-- Witness value of a successful chain verification
(`ServerCertVerified::assertion()`). -/
inductive ServerCertVerified
  | assertion
deriving DecidableEq, Repr

/-- Witness value of a successful signature verification
(`HandshakeSignatureValid::assertion()`). -/
inductive HandshakeSignatureValid
  | assertion
deriving DecidableEq, Repr

namespace NoCertVerifier

/-- `NoCertVerifier::verify_server_cert`: ignores the end-entity, the
intermediates, the server name, the OCSP response and the timestamp. -/
def verify_server_cert (_endEntity : Bytes) (_intermediates : List Bytes)
    (_serverName : ServerName) (_ocspResponse : Bytes) (_now : Nat) :
    Except RustlsError ServerCertVerified :=
  .ok .assertion

/-- `NoCertVerifier::verify_tls12_signature`: ignores message, certificate
and signature. -/
def verify_tls12_signature (_message : Bytes) (_cert : Bytes) (_dss : Bytes) :
    Except RustlsError HandshakeSignatureValid :=
  .ok .assertion

/-- `NoCertVerifier::verify_tls13_signature`: ignores message, certificate
and signature. -/
def verify_tls13_signature (_message : Bytes) (_cert : Bytes) (_dss : Bytes) :
    Except RustlsError HandshakeSignatureValid :=
  .ok .assertion

/-- `NoCertVerifier::supported_verify_schemes`, in source order. -/
def supported_verify_schemes : List SignatureScheme :=
  [.RSA_PKCS1_SHA1, .ECDSA_SHA1_Legacy, .RSA_PKCS1_SHA256,
   .ECDSA_NISTP256_SHA256, .RSA_PKCS1_SHA384, .ECDSA_NISTP384_SHA384,
   .RSA_PKCS1_SHA512, .ECDSA_NISTP521_SHA512, .RSA_PSS_SHA256,
   .RSA_PSS_SHA384, .RSA_PSS_SHA512, .ED25519, .ED448]

end NoCertVerifier

/-! ## Decidability of `Except` equality (for concrete evaluations) -/

/-- Equality of `Except` values is decidable when it is on both sides. -/
def exceptDecEq {ε α : Type} [DecidableEq ε] [DecidableEq α] :
    (a b : Except ε α) → Decidable (a = b)
  | .ok a, .ok b =>
      if h : a = b then isTrue (by rw [h])
      else isFalse (fun hc => h (Except.ok.inj hc))
  | .ok _, .error _ => isFalse (fun hc => Except.noConfusion hc)
  | .error _, .ok _ => isFalse (fun hc => Except.noConfusion hc)
  | .error a, .error b =>
      if h : a = b then isTrue (by rw [h])
      else isFalse (fun hc => h (Except.error.inj hc))

instance {ε α : Type} [DecidableEq ε] [DecidableEq α] : DecidableEq (Except ε α) :=
  exceptDecEq

/-! ## A concrete test environment

Used by the witness and counterexample theorems: a toy PEM encoding in
which the byte `0` separates certificate blocks, the byte `9` anywhere
makes the PEM structure malformed, and the single-byte payload `[7]` is
the one DER blob that fails certificate parsing. -/

/-- Toy PEM-block extraction. -/
def toyPemBlocks (bs : Bytes) : Option (List Bytes) :=
  if bs.contains 9 then none
  else some ((bs.splitOn 0).filter (fun b => !b.isEmpty))

/-- Toy DER validity: everything except `[7]` parses. -/
def toyValidCertDer (b : Bytes) : Bool := b != [7]

/-- A `.pem` file holding two certificates (`[1]` and `[2]`). -/
def twoPemPath : Path := ⟨"two.pem", some "pem"⟩

/-- A `.pem` file holding exactly one certificate (`[1]`). -/
def onePemPath : Path := ⟨"one.pem", some "pem"⟩

/-- A `.pem` file holding zero certificates. -/
def zeroPemPath : Path := ⟨"zero.pem", some "pem"⟩

/-- A file with the unsupported extension `txt`. -/
def txtPath : Path := ⟨"notes.txt", some "txt"⟩

/-- A path whose read fails with `NotFound`. -/
def missingPath : Path := ⟨"missing.pem", some "pem"⟩

/-- A `.der` file holding one DER certificate. -/
def derPath : Path := ⟨"ca.der", some "der"⟩

/-- A single-certificate file with the uppercase extension `PEM`. -/
def upperPemPath : Path := ⟨"ca.PEM", some "PEM"⟩

/-- The toy filesystem. -/
def toyRead (p : Path) : Except IoErrorKind Bytes :=
  if p = twoPemPath then .ok [1, 0, 2]
  else if p = onePemPath then .ok [1]
  else if p = zeroPemPath then .ok []
  else if p = txtPath then .ok [1]
  else if p = derPath then .ok [3]
  else if p = upperPemPath then .ok [1]
  else .error .NotFound

/-- The toy environment. -/
def toyEnv : Env := ⟨toyRead, toyPemBlocks, toyValidCertDer⟩

/-- A platform store with one parseable certificate. -/
def toyNative : NativeCertList := [[5]]

/-- The one configuration shape on which the two backends disagree: a
`CaCertificateLocation` whose file is readable, has a `.pem`/`.crt`
extension, and whose contents hold two or more PEM certificate blocks
(the rustls backend rejects such a file, the native-tls backend accepts
its first certificate). -/
def locationMultiCert (env : Env) (t : TrustConfig) : Bool :=
  match t with
  | .CaCertificateLocation path =>
      match env.fsRead path, path.ext with
      | .ok buf, some ext =>
          if asciiLower ext = "pem" ∨ asciiLower ext = "crt" then
            match env.pemBlocks buf with
            | some blocks => decide (2 ≤ blocks.length)
            | none => false
          else false
      | _, _ => false
  | _ => false

/-! ## Helper lemmas -/

/-- `RootCertStore.addAll` on an all-valid list appends the whole list. -/
theorem addAll_ok (env : Env) (l : List Bytes) :
    ∀ store, l.all env.validCertDer = true →
      RootCertStore.addAll env store l = .ok (store ++ l) := by
  induction l with
  | nil => intro store _; simp [RootCertStore.addAll]
  | cons c rest ih =>
      intro store h
      simp only [List.all_cons, Bool.and_eq_true] at h
      simp only [RootCertStore.addAll, RootCertStore.add, h.1, if_true]
      rw [ih (store ++ [c]) h.2]
      simp

/-- `RootCertStore.addAll` fails when some element does not parse. -/
theorem addAll_fails (env : Env) (l : List Bytes) :
    ∀ store, l.all env.validCertDer = false →
      (RootCertStore.addAll env store l).isOk = false := by
  induction l with
  | nil => intro store h; simp at h
  | cons c rest ih =>
      intro store h
      simp only [List.all_cons, Bool.and_eq_false_iff] at h
      by_cases hc : env.validCertDer c
      · have hrest : rest.all env.validCertDer = false := by
          rcases h with h | h
          · rw [hc] at h; exact absurd h (by simp)
          · exact h
        simp only [RootCertStore.addAll, RootCertStore.add, hc, if_true]
        exact ih _ hrest
      · have hc' : env.validCertDer c = false := by simpa using hc
        simp [RootCertStore.addAll, RootCertStore.add, hc', Except.isOk, Except.toBool]

/-- `addBundleCerts` on an all-valid list appends the whole list. -/
theorem addBundleCerts_ok (env : Env) (l : List Bytes) :
    ∀ b, l.all env.validCertDer = true →
      addBundleCerts env b l = .ok { b with rootCerts := b.rootCerts ++ l } := by
  induction l with
  | nil => intro b _; simp [addBundleCerts]
  | cons c rest ih =>
      intro b h
      simp only [List.all_cons, Bool.and_eq_true] at h
      simp only [addBundleCerts, h.1, if_true]
      rw [ih _ h.2]
      simp

/-- `addBundleCerts` fails when some element does not parse. -/
theorem addBundleCerts_fails (env : Env) (l : List Bytes) :
    ∀ b, l.all env.validCertDer = false →
      (addBundleCerts env b l).isOk = false := by
  induction l with
  | nil => intro b h; simp at h
  | cons c rest ih =>
      intro b h
      simp only [List.all_cons, Bool.and_eq_false_iff] at h
      by_cases hc : env.validCertDer c
      · have hrest : rest.all env.validCertDer = false := by
          rcases h with h | h
          · rw [hc] at h; exact absurd h (by simp)
          · exact h
        simp only [addBundleCerts, hc, if_true]
        exact ih _ hrest
      · have hc' : env.validCertDer c = false := by simpa using hc
        simp [addBundleCerts, hc', Except.isOk, Except.toBool]

/-- Full characterisation of the `with_native_roots` loop: the resulting
store is the sublist of parseable certificates, `valid_count` its length,
`invalid_count` the number of rejects. -/
theorem withNativeRootsLoop_spec (env : Env) (l : List Bytes) :
    ∀ acc, withNativeRootsLoop env acc l =
      ⟨acc.roots ++ l.filter env.validCertDer,
       acc.validCount + (l.filter env.validCertDer).length,
       acc.invalidCount + (l.filter (fun c => !(env.validCertDer c))).length⟩ := by
  induction l with
  | nil => intro acc; simp [withNativeRootsLoop]
  | cons c rest ih =>
      intro acc
      by_cases hc : env.validCertDer c
      · simp only [withNativeRootsLoop, hc, if_true]
        rw [ih]
        simp only [List.filter_cons, hc, Bool.not_true, if_true]
        simp [Nat.add_assoc, Nat.add_comm 1]
      · have hc' : env.validCertDer c = false := by simpa using hc
        simp only [withNativeRootsLoop, hc', Bool.false_eq_true, if_false]
        rw [ih]
        simp only [List.filter_cons, hc', Bool.not_false, Bool.false_eq_true,
          if_false, if_true]
        simp [Nat.add_assoc, Nat.add_comm 1]

/-- The placeholder host name passes the pki-types DNS validation. -/
theorem placeholder_dns_valid : dnsNameIsValid "placeholder.domain.com" = true := by
  decide

/-! ## Claim theorems -/

/-- C7 (amended): under `TrustAll`, the rustls backend builds an empty root
store with the `NoCertVerifier` override but leaves SNI enabled — the
`enable_sni = false` statement is commented out in the source — while the
native-tls backend sets `danger_accept_invalid_certs` and
`danger_accept_invalid_hostnames` and disables SNI. -/
theorem trustAll_backend_configuration (env : Env) (native : NativeCertList)
    (host : String) :
    TlsStream.new env native ⟨host, .TrustAll⟩ =
      .ok { roots := [], verifier := .NoCertVerifierOverride, enableSni := true } ∧
    create_tls_stream env ⟨host, .TrustAll⟩ =
      .ok { rootCerts := [], acceptInvalidCerts := true
            acceptInvalidHostnames := true, useSni := false } :=
  ⟨rfl, rfl⟩

/-- C7 counterexample: at a concrete `TrustAll` config the rustls client
config comes out with `enable_sni = true`, so the rustls backend does not
disable SNI usage as the claim states. -/
theorem trustAll_rustls_sni_still_enabled :
    (TlsStream.new toyEnv toyNative ⟨"host", .TrustAll⟩).map ClientConfig.enableSni =
      .ok true := by
  decide

/-- C8: each of the three verification operations of the permissive verifier
returns a valid result for every input chain, signature, server name,
OCSP response and timestamp, and the declared scheme list covers RSA
PKCS1 and PSS, ECDSA and EdDSA schemes at multiple hash strengths. -/
theorem permissive_verifier_accepts_everything (endEntity : Bytes)
    (intermediates : List Bytes) (serverName : ServerName)
    (ocspResponse : Bytes) (now : Nat) (m12 c12 d12 m13 c13 d13 : Bytes) :
    NoCertVerifier.verify_server_cert endEntity intermediates serverName
      ocspResponse now = .ok .assertion ∧
    NoCertVerifier.verify_tls12_signature m12 c12 d12 = .ok .assertion ∧
    NoCertVerifier.verify_tls13_signature m13 c13 d13 = .ok .assertion ∧
    [SignatureScheme.RSA_PKCS1_SHA256, .RSA_PKCS1_SHA384, .RSA_PKCS1_SHA512,
     .RSA_PSS_SHA256, .RSA_PSS_SHA384, .RSA_PSS_SHA512,
     .ECDSA_NISTP256_SHA256, .ECDSA_NISTP384_SHA384, .ECDSA_NISTP521_SHA512,
     .ED25519, .ED448] ⊆ NoCertVerifier.supported_verify_schemes :=
  ⟨rfl, rfl, rfl, by decide⟩

/-- C10: under `TrustAll` the rustls server-name resolution is total for
every host string and every IP-parsing behaviour: it always produces a
parsed server name, never an error, and never the `.ok none` that would
mark the placeholder `unwrap()` panicking — because
`"placeholder.domain.com"` always passes DNS validation. -/
theorem get_server_name_trustAll_total (ipParse : String → Bool) (host : String) :
    ∃ sn, get_server_name ipParse ⟨host, .TrustAll⟩ = .ok (some sn) := by
  cases h : ServerName.try_from ipParse host with
  | some sn => exact ⟨sn, by simp [get_server_name, h]⟩
  | none =>
      refine ⟨.DnsName "placeholder.domain.com", ?_⟩
      simp only [get_server_name]
      rw [h]
      simp [ServerName.try_from, placeholder_dns_valid]

/-- C6: a host that parses as a server name is returned whatever the trust
policy; an unparseable host yields the fixed placeholder — itself a valid
DNS name — under `TrustAll`, and a TLS configuration error under every
other policy. -/
theorem get_server_name_spec (ipParse : String → Bool) (host : String)
    (trust : TrustConfig) :
    dnsNameIsValid "placeholder.domain.com" = true ∧
    (∀ sn, ServerName.try_from ipParse host = some sn →
      get_server_name ipParse ⟨host, trust⟩ = .ok (some sn)) ∧
    (ServerName.try_from ipParse host = none → trust = .TrustAll →
      get_server_name ipParse ⟨host, trust⟩ =
        .ok (some (.DnsName "placeholder.domain.com"))) ∧
    (ServerName.try_from ipParse host = none → trust ≠ .TrustAll →
      get_server_name ipParse ⟨host, trust⟩ = .error (.Tls "invalid dns name")) := by
  refine ⟨placeholder_dns_valid, ?_, ?_, ?_⟩
  · intro sn h
    simp [get_server_name, h]
  · intro h htrust
    subst htrust
    simp only [get_server_name]
    rw [h]
    simp [ServerName.try_from, placeholder_dns_valid]
  · intro h htrust
    cases trust with
    | TrustAll => exact absurd rfl htrust
    | CaCertificateLocation p => simp [get_server_name, h]
    | CaCertificateBundle b => simp [get_server_name, h]
    | Default => simp [get_server_name, h]

/-- C6 witness: the host `"not a host!!"` parses neither as a DNS name nor
as an IP address, yet under `TrustAll` resolution succeeds with the
placeholder. -/
theorem get_server_name_spec_witness :
    ServerName.try_from (fun _ => false) "not a host!!" = none ∧
    get_server_name (fun _ => false) ⟨"not a host!!", .TrustAll⟩ =
      .ok (some (.DnsName "placeholder.domain.com")) :=
  ⟨by decide,
   (get_server_name_spec (fun _ => false) "not a host!!" .TrustAll).2.2.1
     (by decide) rfl⟩

/-- C3 (amended): when the CA file cannot be read, both backends fail, but
with fixed errors that discard the underlying I/O error kind: the rustls
backend with an I/O error of kind `InvalidData` and a fixed message, the
native-tls backend with a TLS error carrying the same message. -/
theorem ca_location_unreadable (env : Env) (native : NativeCertList)
    (host : String) (path : Path) (kind : IoErrorKind)
    (hread : env.fsRead path = .error kind) :
    TlsStream.new env native ⟨host, .CaCertificateLocation path⟩ =
      .error (.Io .InvalidData "Could not read provided CA certificate!") ∧
    create_tls_stream env ⟨host, .CaCertificateLocation path⟩ =
      .error (.Tls "Could not read provided CA certificate!") := by
  constructor
  · simp [TlsStream.new, hread]
  · simp [create_tls_stream, hread]

/-- C3 witness: a `NotFound` read failure makes the rustls backend return
its fixed `InvalidData` I/O error. -/
theorem ca_location_unreadable_witness :
    toyEnv.fsRead missingPath = .error .NotFound ∧
    TlsStream.new toyEnv toyNative ⟨"host", .CaCertificateLocation missingPath⟩ =
      .error (.Io .InvalidData "Could not read provided CA certificate!") :=
  ⟨by decide,
   (ca_location_unreadable toyEnv toyNative "host" missingPath .NotFound
     (by decide)).1⟩

/-- C3 counterexample: for a file whose read fails with kind `NotFound`,
the rustls backend reports kind `InvalidData` (not `NotFound`) and the
native-tls backend reports a TLS error that is not an I/O error at all, so
neither backend carries the underlying I/O error kind. -/
theorem ca_location_unreadable_kind_not_propagated :
    toyEnv.fsRead missingPath = .error .NotFound ∧
    TlsStream.new toyEnv toyNative ⟨"h", .CaCertificateLocation missingPath⟩ =
      .error (.Io .InvalidData "Could not read provided CA certificate!") ∧
    create_tls_stream toyEnv ⟨"h", .CaCertificateLocation missingPath⟩ =
      .error (.Tls "Could not read provided CA certificate!") ∧
    (Error.Io .InvalidData "Could not read provided CA certificate!" ≠
      Error.Io .NotFound "Could not read provided CA certificate!") := by
  refine ⟨by decide, by decide, by decide, by decide⟩

/-- C4 (amended): for a readable CA file whose extension is none of
`pem`/`crt`/`der` case-insensitively, the rustls backend fails with an
`InvalidInput` I/O error whose message names the supported extensions,
while the native-tls backend fails with a TLS error carrying the same
message (not an `InvalidInput` I/O error); extensions `.pem`/`.crt`/`.der`
in any letter case are accepted for decoding in both backends. -/
theorem ca_location_extension_handling (env : Env) (native : NativeCertList)
    (host : String) (path : Path) (buf : Bytes) (ext : String)
    (hread : env.fsRead path = .ok buf)
    (hext : path.ext = some ext) :
    (asciiLower ext ≠ "pem" → asciiLower ext ≠ "crt" → asciiLower ext ≠ "der" →
      TlsStream.new env native ⟨host, .CaCertificateLocation path⟩ =
        .error (.Io .InvalidInput "Provided CA certificate with unsupported file-extension! Supported types are pem, crt and der.") ∧
      create_tls_stream env ⟨host, .CaCertificateLocation path⟩ =
        .error (.Tls "Provided CA certificate with unsupported file-extension! Supported types are pem, crt and der.")) ∧
    (∀ c, (asciiLower ext = "pem" ∨ asciiLower ext = "crt") →
      env.pemBlocks buf = some [c] → env.validCertDer c = true →
      TlsStream.new env native ⟨host, .CaCertificateLocation path⟩ =
        .ok { roots := [c], verifier := .WebPki, enableSni := true } ∧
      create_tls_stream env ⟨host, .CaCertificateLocation path⟩ =
        .ok { TlsConnectorBuilder.new with rootCerts := [c] }) ∧
    (asciiLower ext = "der" → env.validCertDer buf = true →
      TlsStream.new env native ⟨host, .CaCertificateLocation path⟩ =
        .ok { roots := [buf], verifier := .WebPki, enableSni := true } ∧
      create_tls_stream env ⟨host, .CaCertificateLocation path⟩ =
        .ok { TlsConnectorBuilder.new with rootCerts := [buf] }) := by
  refine ⟨?_, ?_, ?_⟩
  · intro h1 h2 h3
    constructor
    · simp [TlsStream.new, hread, hext, h1, h2, h3]
    · simp [create_tls_stream, hread, hext, h1, h2, h3]
  · intro c hpem hone hvalid
    constructor
    · simp [TlsStream.new, hread, hext, hpem, hone, hvalid, RootCertStore.add]
    · simp [create_tls_stream, hread, hext, hpem, hone, hvalid,
        Certificate.from_pem, TlsConnectorBuilder.new]
  · intro hder hvalid
    have h1 : asciiLower ext ≠ "pem" := by rw [hder]; decide
    have h2 : asciiLower ext ≠ "crt" := by rw [hder]; decide
    constructor
    · simp [TlsStream.new, hread, hext, h1, h2, hder, hvalid, RootCertStore.add]
    · simp [create_tls_stream, hread, hext, h1, h2, hder, hvalid,
        Certificate.from_der, TlsConnectorBuilder.new]

/-- C4 witness: the uppercase extension `PEM` is accepted and the single
certificate of the file becomes the root. -/
theorem ca_location_extension_handling_witness :
    toyEnv.fsRead upperPemPath = .ok [1] ∧
    asciiLower "PEM" = "pem" ∧
    TlsStream.new toyEnv toyNative ⟨"h", .CaCertificateLocation upperPemPath⟩ =
      .ok { roots := [[1]], verifier := .WebPki, enableSni := true } :=
  ⟨by decide, by decide,
   ((ca_location_extension_handling toyEnv toyNative "h" upperPemPath [1] "PEM"
       (by decide) rfl).2.1 [1] (Or.inl (by decide)) (by decide) (by decide)).1⟩

/-- C4 counterexample: for a readable `.txt` file the native-tls backend
fails with a `Tls`-variant error, not with an `InvalidInput` I/O error as
the claim states for each backend. -/
theorem ca_location_txt_native_error_is_tls :
    toyEnv.fsRead txtPath = .ok [1] ∧
    create_tls_stream toyEnv ⟨"h", .CaCertificateLocation txtPath⟩ =
      .error (.Tls "Provided CA certificate with unsupported file-extension! Supported types are pem, crt and der.") ∧
    (Error.Tls "Provided CA certificate with unsupported file-extension! Supported types are pem, crt and der." ≠
      Error.Io .InvalidInput "Provided CA certificate with unsupported file-extension! Supported types are pem, crt and der.") := by
  refine ⟨by decide, by decide, by decide⟩

/-- C2 (amended): for a readable `.pem`/`.crt` CA file, the rustls backend
fails with an `InvalidInput` I/O error whenever the file does not decode
to exactly one certificate, and succeeds on a single decodable
certificate; the native-tls backend performs no cardinality check: it
fails when the file decodes to zero certificates but succeeds on two or
more, using the first. -/
theorem ca_location_cert_cardinality (env : Env) (native : NativeCertList)
    (host : String) (path : Path) (buf : Bytes) (blocks : List Bytes) (ext : String)
    (hread : env.fsRead path = .ok buf)
    (hext : path.ext = some ext)
    (hpem : asciiLower ext = "pem" ∨ asciiLower ext = "crt")
    (hblocks : env.pemBlocks buf = some blocks) :
    (blocks.length ≠ 1 →
      TlsStream.new env native ⟨host, .CaCertificateLocation path⟩ =
        .error (.Io .InvalidInput
          ("Certificate file " ++ path.name ++ " contain 0 or more than 1 certs"))) ∧
    (∀ c, blocks = [c] →
      (TlsStream.new env native ⟨host, .CaCertificateLocation path⟩).isOk =
        env.validCertDer c) ∧
    (blocks = [] →
      (create_tls_stream env ⟨host, .CaCertificateLocation path⟩).isOk = false) ∧
    (∀ c rest, blocks = c :: rest → env.validCertDer c = true →
      create_tls_stream env ⟨host, .CaCertificateLocation path⟩ =
        .ok { TlsConnectorBuilder.new with rootCerts := [c] }) := by
  refine ⟨?_, ?_, ?_, ?_⟩
  · intro hlen
    have hne : ∀ c, blocks ≠ [c] := by
      intro c hc
      exact hlen (by rw [hc]; rfl)
    match blocks, hne with
    | [], _ =>
        simp [TlsStream.new, hread, hext, hpem, hblocks]
    | c :: c2 :: rest, _ =>
        simp [TlsStream.new, hread, hext, hpem, hblocks]
    | [c], hne => exact absurd rfl (hne c)
  · intro c hc
    subst hc
    by_cases hv : env.validCertDer c
    · simp [TlsStream.new, hread, hext, hpem, hblocks, RootCertStore.add, hv,
        Except.isOk, Except.toBool]
    · have hv' : env.validCertDer c = false := by simpa using hv
      simp [TlsStream.new, hread, hext, hpem, hblocks, RootCertStore.add, hv',
        Except.isOk, Except.toBool]
  · intro hc
    subst hc
    simp [create_tls_stream, hread, hext, hpem, hblocks, Certificate.from_pem,
      Except.isOk, Except.toBool]
  · intro c rest hc hvalid
    subst hc
    simp [create_tls_stream, hread, hext, hpem, hblocks, Certificate.from_pem,
      hvalid, TlsConnectorBuilder.new]

/-- C2 witness: a `.pem` file with two certificates is rejected by the
rustls backend with the `InvalidInput` cardinality error. -/
theorem ca_location_cert_cardinality_witness :
    toyEnv.pemBlocks [1, 0, 2] = some [[1], [2]] ∧
    TlsStream.new toyEnv toyNative ⟨"h", .CaCertificateLocation twoPemPath⟩ =
      .error (.Io .InvalidInput
        ("Certificate file " ++ twoPemPath.name ++ " contain 0 or more than 1 certs")) :=
  ⟨by decide,
   (ca_location_cert_cardinality toyEnv toyNative "h" twoPemPath [1, 0, 2]
       [[1], [2]] "pem" (by decide) rfl (Or.inl (by decide)) (by decide)).1 (by decide)⟩

/-- C2 counterexample: on a `.pem` file decoding to two certificates, the
native-tls backend does not fail with an invalid-input error — it
succeeds, taking the first certificate as the root. -/
theorem ca_location_two_certs_native_accepts :
    toyEnv.fsRead twoPemPath = .ok [1, 0, 2] ∧
    toyEnv.pemBlocks [1, 0, 2] = some [[1], [2]] ∧
    create_tls_stream toyEnv ⟨"h", .CaCertificateLocation twoPemPath⟩ =
      .ok { TlsConnectorBuilder.new with rootCerts := [[1]] } := by
  refine ⟨by decide, by decide, by decide⟩

/-- C5: bundle loading is fail-fast in both backends: when the N
PEM blocks of the bundle all decode, the resulting root store holds exactly those N
certificates; when the PEM structure is malformed or any block fails to
decode, stream creation fails and no partial root store is produced. -/
theorem ca_bundle_fail_fast (env : Env) (native : NativeCertList)
    (host : String) (bundle : Bytes) :
    (∀ blocks, env.pemBlocks bundle = some blocks →
      blocks.all env.validCertDer = true →
      TlsStream.new env native ⟨host, .CaCertificateBundle bundle⟩ =
        .ok { roots := blocks, verifier := .WebPki, enableSni := true } ∧
      create_tls_stream env ⟨host, .CaCertificateBundle bundle⟩ =
        .ok { TlsConnectorBuilder.new with rootCerts := blocks }) ∧
    (∀ blocks, env.pemBlocks bundle = some blocks →
      blocks.all env.validCertDer = false →
      (TlsStream.new env native ⟨host, .CaCertificateBundle bundle⟩).isOk = false ∧
      (create_tls_stream env ⟨host, .CaCertificateBundle bundle⟩).isOk = false) ∧
    (env.pemBlocks bundle = none →
      TlsStream.new env native ⟨host, .CaCertificateBundle bundle⟩ =
        .error (.Io .InvalidData "PEM parse error") ∧
      create_tls_stream env ⟨host, .CaCertificateBundle bundle⟩ =
        .error (.Tls "PEM parse error")) := by
  refine ⟨?_, ?_, ?_⟩
  · intro blocks hb hall
    constructor
    · simp [TlsStream.new, hb, addAll_ok env blocks [] hall]
    · have h2 := addBundleCerts_ok env blocks TlsConnectorBuilder.new hall
      simp only [TlsConnectorBuilder.new, List.nil_append] at h2
      simp [create_tls_stream, IterCertBundle.blocks, hb, h2,
        TlsConnectorBuilder.new]
  · intro blocks hb hall
    constructor
    · cases hres : RootCertStore.addAll env [] blocks with
      | ok store =>
          have := addAll_fails env blocks [] hall
          rw [hres] at this
          exact absurd this (by simp [Except.isOk, Except.toBool])
      | error e =>
          simp [TlsStream.new, hb, hres, Except.isOk, Except.toBool]
    · have := addBundleCerts_fails env blocks TlsConnectorBuilder.new hall
      simp only [create_tls_stream, IterCertBundle.blocks, hb]
      exact this
  · intro hb
    constructor
    · simp [TlsStream.new, hb]
    · simp [create_tls_stream, IterCertBundle.blocks, hb]

/-- C5 witness: a bundle of two decodable blocks yields a two-certificate
root store in both backends; a bundle with a malformed block fails in
both. -/
theorem ca_bundle_fail_fast_witness :
    toyEnv.pemBlocks [1, 0, 2] = some [[1], [2]] ∧
    TlsStream.new toyEnv toyNative ⟨"h", .CaCertificateBundle [1, 0, 2]⟩ =
      .ok { roots := [[1], [2]], verifier := .WebPki, enableSni := true } ∧
    (create_tls_stream toyEnv ⟨"h", .CaCertificateBundle [1, 0, 7]⟩).isOk = false :=
  ⟨by decide,
   ((ca_bundle_fail_fast toyEnv toyNative "h" [1, 0, 2]).1 [[1], [2]]
      (by decide) (by decide)).1,
   ((ca_bundle_fail_fast toyEnv toyNative "h" [1, 0, 7]).2.1 [[1], [7]]
      (by decide) (by decide)).2⟩

/-- C9: loading native roots under the `Default` policy skips and counts
unparseable certificates instead of aborting; the resulting store is the
sublist of parseable anchors with exact valid/invalid counts; with at
least one usable anchor the assertion cannot fire and resolution
succeeds, and with zero usable anchors resolution fails fatally instead
of proceeding. -/
theorem default_native_roots_spec (env : Env) (native : NativeCertList)
    (host : String) :
    (withNativeRootsLoop env ⟨[], 0, 0⟩ native).roots =
      native.filter env.validCertDer ∧
    (withNativeRootsLoop env ⟨[], 0, 0⟩ native).validCount =
      (native.filter env.validCertDer).length ∧
    (withNativeRootsLoop env ⟨[], 0, 0⟩ native).invalidCount =
      (native.filter (fun c => !(env.validCertDer c))).length ∧
    (native.filter env.validCertDer ≠ [] →
      TlsStream.new env native ⟨host, .Default⟩ =
        .ok { roots := native.filter env.validCertDer, verifier := .WebPki
              enableSni := true }) ∧
    (native.filter env.validCertDer = [] →
      TlsStream.new env native ⟨host, .Default⟩ =
        .error (.Tls "assertion failed: no CA certificates found")) := by
  have hspec := withNativeRootsLoop_spec env native ⟨[], 0, 0⟩
  refine ⟨by rw [hspec]; simp, by rw [hspec]; simp, by rw [hspec]; simp, ?_, ?_⟩
  · intro hne
    have hempty : (native.filter env.validCertDer).isEmpty = false := by
      cases hfe : native.filter env.validCertDer with
      | nil => exact absurd hfe hne
      | cons a l => rfl
    simp only [TlsStream.new, with_native_roots]
    rw [hspec]
    simp [hempty]
  · intro heq
    simp only [TlsStream.new, with_native_roots]
    rw [hspec]
    simp [heq]

/-- C9 witness: with one usable native anchor the store is that anchor,
the counts are 1/0, and resolution under `Default` succeeds; with an
all-invalid native store resolution fails with the assertion error. -/
theorem default_native_roots_spec_witness :
    (withNativeRootsLoop toyEnv ⟨[], 0, 0⟩ toyNative).roots = [[5]] ∧
    TlsStream.new toyEnv toyNative ⟨"h", .Default⟩ =
      .ok { roots := [[5]], verifier := .WebPki, enableSni := true } ∧
    TlsStream.new toyEnv [[7]] ⟨"h", .Default⟩ =
      .error (.Tls "assertion failed: no CA certificates found") :=
  ⟨(default_native_roots_spec toyEnv toyNative "h").1,
   (default_native_roots_spec toyEnv toyNative "h").2.2.2.1 (by decide),
   (default_native_roots_spec toyEnv [[7]] "h").2.2.2.2 (by decide)⟩

/-- C1 (amended): at trust-material resolution the two backends produce
the same accept/reject outcome for every config and environment, provided
the platform store yields at least one usable anchor (otherwise the rustls
assertion of the rustls `Default` branch aborts while native-tls proceeds) and the
config is not a readable `.pem`/`.crt` location file holding two or more
certificates — the one shape on which the backends disagree. -/
theorem backend_engine_equivalence (env : Env) (native : NativeCertList)
    (config : Config)
    (hnative : native.filter env.validCertDer ≠ [])
    (hdiv : locationMultiCert env config.trust = false) :
    (create_tls_stream env config).isOk = (TlsStream.new env native config).isOk := by
  obtain ⟨host, trust⟩ := config
  cases trust with
  | TrustAll => rfl
  | Default =>
      have hempty : (native.filter env.validCertDer).isEmpty = false := by
        cases hfe : native.filter env.validCertDer with
        | nil => exact absurd hfe hnative
        | cons a l => rfl
      have hspec := withNativeRootsLoop_spec env native ⟨[], 0, 0⟩
      simp [create_tls_stream, TlsStream.new, with_native_roots, hspec, hempty,
        Except.isOk, Except.toBool]
  | CaCertificateBundle bundle =>
      cases hb : env.pemBlocks bundle with
      | none =>
          simp [create_tls_stream, TlsStream.new, IterCertBundle.blocks, hb,
            Except.isOk, Except.toBool]
      | some blocks =>
          cases hall : blocks.all env.validCertDer with
          | true =>
              have h1 := addBundleCerts_ok env blocks TlsConnectorBuilder.new hall
              have h2 := addAll_ok env blocks [] hall
              simp [create_tls_stream, TlsStream.new, IterCertBundle.blocks, hb,
                h1, h2, Except.isOk, Except.toBool]
          | false =>
              have h1 := addBundleCerts_fails env blocks TlsConnectorBuilder.new hall
              cases hres : RootCertStore.addAll env [] blocks with
              | ok store =>
                  have h2 := addAll_fails env blocks [] hall
                  rw [hres] at h2
                  exact absurd h2 (by simp [Except.isOk, Except.toBool])
              | error e =>
                  simp only [create_tls_stream, TlsStream.new,
                    IterCertBundle.blocks, hb, hres]
                  rw [h1]
                  simp [Except.isOk, Except.toBool]
  | CaCertificateLocation path =>
      cases hread : env.fsRead path with
      | error k =>
          simp [create_tls_stream, TlsStream.new, hread, Except.isOk, Except.toBool]
      | ok buf =>
          cases hext : path.ext with
          | none =>
              simp [create_tls_stream, TlsStream.new, hread, hext,
                Except.isOk, Except.toBool]
          | some ext =>
              by_cases hpem : asciiLower ext = "pem" ∨ asciiLower ext = "crt"
              · cases hb : env.pemBlocks buf with
                | none =>
                    simp [create_tls_stream, TlsStream.new, Certificate.from_pem,
                      hread, hext, hpem, hb, Except.isOk, Except.toBool]
                | some blocks =>
                    cases blocks with
                    | nil =>
                        simp [create_tls_stream, TlsStream.new, Certificate.from_pem,
                          hread, hext, hpem, hb, Except.isOk, Except.toBool]
                    | cons c rest =>
                        cases rest with
                        | nil =>
                            by_cases hv : env.validCertDer c
                            · simp [create_tls_stream, TlsStream.new,
                                Certificate.from_pem, RootCertStore.add, hread,
                                hext, hpem, hb, hv, Except.isOk, Except.toBool]
                            · have hv' : env.validCertDer c = false := by
                                simpa using hv
                              simp [create_tls_stream, TlsStream.new,
                                Certificate.from_pem, RootCertStore.add, hread,
                                hext, hpem, hb, hv', Except.isOk, Except.toBool]
                        | cons c2 rest2 =>
                            exfalso
                            have hloc : locationMultiCert env
                                (.CaCertificateLocation path) = true := by
                              simp only [locationMultiCert, hread, hext, hb]
                              rw [if_pos hpem]
                              simp
                            rw [hloc] at hdiv
                            exact Bool.noConfusion hdiv
              · by_cases hder : asciiLower ext = "der"
                · by_cases hv : env.validCertDer buf
                  · simp [create_tls_stream, TlsStream.new, Certificate.from_der,
                      RootCertStore.add, hread, hext, hpem, hder, hv,
                      Except.isOk, Except.toBool]
                  · have hv' : env.validCertDer buf = false := by simpa using hv
                    simp [create_tls_stream, TlsStream.new, Certificate.from_der,
                      RootCertStore.add, hread, hext, hpem, hder, hv',
                      Except.isOk, Except.toBool]
                · simp [create_tls_stream, TlsStream.new, hread, hext, hpem,
                    hder, Except.isOk, Except.toBool]

/-- C1 witness: on a single-certificate `.pem` location file — a shape on
which the amended equivalence applies — both backends accept. -/
theorem backend_engine_equivalence_witness :
    toyNative.filter toyEnv.validCertDer ≠ [] ∧
    locationMultiCert toyEnv (.CaCertificateLocation onePemPath) = false ∧
    (create_tls_stream toyEnv ⟨"h", .CaCertificateLocation onePemPath⟩).isOk =
      (TlsStream.new toyEnv toyNative ⟨"h", .CaCertificateLocation onePemPath⟩).isOk :=
  ⟨by decide, by decide,
   backend_engine_equivalence toyEnv toyNative
     ⟨"h", .CaCertificateLocation onePemPath⟩ (by decide) (by decide)⟩

/-- C1 counterexample: a readable `.pem` location file holding two valid
certificates is accepted by the native-tls backend and rejected by the
rustls backend — the accept/reject outcomes differ for the same `Config`. -/
theorem backend_engine_divergence :
    toyEnv.fsRead twoPemPath = .ok [1, 0, 2] ∧
    toyEnv.pemBlocks [1, 0, 2] = some [[1], [2]] ∧
    (create_tls_stream toyEnv ⟨"h", .CaCertificateLocation twoPemPath⟩).isOk = true ∧
    (TlsStream.new toyEnv toyNative ⟨"h", .CaCertificateLocation twoPemPath⟩).isOk = false := by
  refine ⟨by decide, by decide, by decide, by decide⟩

end Tiberius
